import Mathlib

/-!
Verification of the go-tail engine (tail.go, watch/polling.go).

Go strings/byte-slices are modelled as `List Char`; Go `int`/`int64` as
`Int` (file sizes, which are non-negative, as `Nat`); a Go `panic` as the
`none` branch of an `Option` result or a dedicated constructor. Loops with
index arithmetic are translated to structural recursion on the remaining
suffix, with an explicit fuel argument chosen large enough (and proved
sufficient in the lemmas below) where the loop variant is not structural.
-/

namespace GoTail

/-- A delivered line: `Line{Text string; Time time.Time}` (tail.go:15-18).
Timestamps are abstracted to `Nat` instants. -/
structure Line where
  text : List Char
  time : Nat
deriving DecidableEq, Repr

/-- Tail configuration (tail.go:21-28). -/
structure Config where
  location : Int
  follow : Bool
  reOpen : Bool
  mustExist : Bool
  poll : Bool
  maxLineSize : Int
deriving DecidableEq, Repr

/-- Loop body of `partitionString` (tail.go:236-245), acting on the
remaining suffix of the string: each iteration takes
`e = min chunkSize remaining.length` bytes as the next chunk
(`end > length` is clamped to `length`), stops when the clamped end hits
the length, otherwise advances by `chunkSize`. `fuel` bounds the number of
iterations; `partitionString` passes `s.length + 1`, which the lemmas
below prove sufficient for any positive chunk size. -/
def partitionLoop (k : Nat) : Nat → List Char → List (List Char)
  | 0, _ => []
  | fuel + 1, s =>
    let e := min k s.length
    s.take e :: (if e = s.length then [] else partitionLoop k fuel (s.drop e))

/-- `partitionString` (tail.go:227-247): panics (`none`) when
`chunkSize <= 0`, otherwise partitions `s` into chunks of `chunkSize`
with a final chunk of variable size. -/
def partitionString (s : List Char) (chunkSize : Int) : Option (List (List Char)) :=
  if chunkSize ≤ 0 then none
  else some (partitionLoop chunkSize.toNat (s.length + 1) s)

/-- The per-line emission decision of `tailFileSync` (tail.go:157-163),
text level: if `MaxLineSize > 0` and the line is longer, emit the
partition of the line; otherwise emit the line whole. `none` is the
(unreachable) panic inside `partitionString`. -/
def emitTexts (maxLineSize : Int) (line : List Char) : Option (List (List Char)) :=
  if maxLineSize > 0 ∧ (line.length : Int) > maxLineSize then
    partitionString line maxLineSize
  else
    some [line]

/-- The per-line emission of `tailFileSync` (tail.go:156-163) including
timestamps: `now := time.Now()` is captured once per read line and every
emitted `Line` of that read carries it. -/
def emitLine (maxLineSize : Int) (line : List Char) (now : Nat) : Option (List Line) :=
  (emitTexts maxLineSize line).map (fun parts => parts.map (fun p => ⟨p, now⟩))

/-- The buffer size of the reader created by `bufio.NewReader`
(tail.go:149): `bufio.defaultBufSize`, 4096 bytes. -/
def bufSize : Nat := 4096

/-- `Tail.readLine` (tail.go:110-113), which calls
`bufio.Reader.ReadLine` on the remaining file content and discards the
`isPrefix` flag. `none` is `io.EOF` with no data. A newline found within
the first `bufSize` unread bytes yields the content up to it, the
end-of-line marker (one optional carriage return followed by the
newline) stripped. With no newline among the first `bufSize` bytes of at
least `bufSize` remaining bytes, `ReadSlice` fails with `ErrBufferFull`
and `ReadLine` returns the full-buffer chunk with `isPrefix = true` and
a nil error — except that a carriage return at the chunk's end is put
back on the buffer, to handle an end-of-line marker straddling the
buffer boundary.
Data at end of file with no newline is returned as is, with no error
(the subsequent call yields `none`). -/
def readLine (content : List Char) : Option (List Char × List Char) :=
  match content with
  | [] => none
  | c :: cs =>
    let content := c :: cs
    let i := content.findIdx (· = '\n')
    if i < content.length ∧ i < bufSize then
      let raw := content.take i
      let line := if raw.getLast? = some '\r' then raw.dropLast else raw
      some (line, content.drop (i + 1))
    else if bufSize ≤ content.length then
      let chunk := content.take bufSize
      if chunk.getLast? = some '\r' then
        some (content.take (bufSize - 1), content.drop (bufSize - 1))
      else
        some (chunk, content.drop bufSize)
    else
      some (content, [])

/-- The read-emit loop of `tailFileSync` (tail.go:151-222) specialised to
`Follow = false` with no stop request, reading from the current seek
position to end of file: lines are read and emitted until `io.EOF`, at
which point the engine closes and returns (tail.go:178-183). Returns the
emitted texts in delivery order; `none` is the panic inside
`partitionString`. `fuel` bounds the number of read iterations;
`runNoFollow` passes `content.length + 1`, proved sufficient below. -/
def runNoFollowF (maxLineSize : Int) : Nat → List Char → Option (List (List Char))
  | 0, _ => none
  | fuel + 1, content =>
    match readLine content with
    | none => some []
    | some (line, rest) =>
      (emitTexts maxLineSize line).bind (fun e =>
        (runNoFollowF maxLineSize fuel rest).map (fun r => e ++ r))

/-- The `Follow = false` run of `tailFileSync` on a fixed content. -/
def runNoFollow (maxLineSize : Int) (content : List Char) : Option (List (List Char)) :=
  runNoFollowF maxLineSize (content.length + 1) content

/-- Outcome of the synchronous part of `TailFile` (tail.go:46-73). -/
inductive StartOutcome
  | panicked (msg : String)
  | openError
  | started
deriving DecidableEq, Repr

/-- `TailFile` (tail.go:46-73), synchronous part: the `ReOpen && !Follow`
panic is checked first (tail.go:47-49); then, when `MustExist` is set,
`os.Open` is attempted and its error returned with a nil session
(tail.go:62-68, abstracted by whether a file exists at the path); only
after that is the driver goroutine scheduled and the session returned
(tail.go:70-72). -/
def tailFileStart (config : Config) (fileExists : Bool) : StartOutcome :=
  if config.reOpen ∧ ¬config.follow then
    .panicked "cannot set ReOpen without Follow."
  else if config.mustExist ∧ ¬fileExists then
    .openError
  else
    .started

/-- Whether a given start outcome has scheduled the driver goroutine
(`go t.tailFileSync()`, tail.go:70) and returned a session. -/
def taskScheduled : StartOutcome → Bool
  | .started => true
  | _ => false

/-- A seek request, as passed to `file.Seek` (tail.go:142):
`whence = 0` is relative to the start of the file, `whence = 2` to its
end. -/
structure SeekSpec where
  whence : Nat
  offset : Int
deriving DecidableEq, Repr

/-- The seek target computed on first open by `tailFileSync`
(tail.go:131-141): `whence` and `offset` default to `0`; the
`Location >= 0` branch keeps `whence = 0` and sets `offset = Location`;
the `Location < 0` branch keeps `whence = 0` and sets
`offset = -1*Location - 1`; the remaining branch sets `whence = 2`. -/
def seekSpec (location : Int) : SeekSpec :=
  if location ≥ 0 then ⟨0, location⟩
  else if location < 0 then ⟨0, -1 * location - 1⟩
  else ⟨2, 0⟩

/-- The absolute position a seek request resolves to on a file of size
`fileSize` (the semantics of `os.File.Seek` for `whence` 0 and 2). -/
def resolveSeek (fileSize : Nat) (sp : SeekSpec) : Int :=
  if sp.whence = 0 then sp.offset else fileSize + sp.offset

/-- File identity as compared by `os.SameFile` (device and inode). -/
structure FileId where
  dev : Nat
  ino : Nat
deriving DecidableEq, Repr

/-- The stat fields the polling watcher reads (`fi.Size()`,
`fi.ModTime()`, identity). Modification times are abstracted to `Int`
instants. -/
structure FileInfo where
  id : FileId
  size : Nat
  modTime : Int
deriving DecidableEq, Repr

/-- Result of `os.Stat` as discriminated by the watcher (polling.go:62-71):
not-found error, any other error, or success. -/
inductive StatResult
  | notFound
  | statError
  | ok (fi : FileInfo)
deriving DecidableEq, Repr

/-- The three change signals of the notifier. -/
inductive Signal
  | deleted
  | truncated
  | modified
deriving DecidableEq, Repr

/-- The watcher goroutine's mutable state between wakes: `prevSize`
(polling.go:53) and `prevModTime` (polling.go:43). -/
structure WatchState where
  prevSize : Nat
  prevModTime : Int
deriving DecidableEq, Repr

/-- What one wake of the polling watcher's goroutine does. -/
inductive WakeResult
  | stop (sig : Signal)
  | panicked
  | cont (sig : Option Signal) (st : WatchState)
deriving DecidableEq, Repr

/-- One wake of the polling watcher's monitoring goroutine
(`PollingFileWatcher.ChangeEvents`, polling.go:61-94), as a function of
the stat result and the last-known state: stat not-found notifies
deleted and returns (closing the notifier); any other stat error panics
(polling.go:70); an `os.SameFile` mismatch with the original file info
notifies deleted and returns; otherwise `fw.Size` is set to the new size
and, if the previous size exceeded it (and was positive), truncated is
notified, `prevSize` updated, and the iteration `continue`s (skipping
the mod-time check); else, after updating `prevSize`, a changed mod time
notifies modified and updates `prevModTime`; otherwise nothing is
notified before the next sleep. -/
def pollWake (origId : FileId) (st : WatchState) (stat : StatResult) : WakeResult :=
  match stat with
  | .notFound => .stop .deleted
  | .statError => .panicked
  | .ok fi =>
    if fi.id ≠ origId then
      .stop .deleted
    else if st.prevSize > 0 ∧ st.prevSize > fi.size then
      .cont (some .truncated) ⟨fi.size, st.prevModTime⟩
    else if fi.modTime ≠ st.prevModTime then
      .cont (some .modified) ⟨fi.size, fi.modTime⟩
    else
      .cont none ⟨fi.size, st.prevModTime⟩

/-! ### Properties of the partition loop -/

theorem partitionLoop_spec (k : Nat) (hk : 0 < k) :
    ∀ fuel (s : List Char), s.length < fuel →
      partitionLoop k fuel s ≠ [] ∧
      (partitionLoop k fuel s).flatten = s ∧
      (partitionLoop k fuel s).length = 1 + (s.length - 1) / k ∧
      ∀ p ∈ (partitionLoop k fuel s).dropLast, p.length = k := by
  intro fuel
  induction fuel with
  | zero => intro s h; omega
  | succ n ih =>
    intro s h
    by_cases he : min k s.length = s.length
    · have hsk : s.length ≤ k := by omega
      have hres : partitionLoop k (n + 1) s = [s] := by
        simp [partitionLoop, he]
      refine ⟨by simp [hres], by simp [hres], ?_, by simp [hres]⟩
      rw [hres]
      have : (s.length - 1) / k = 0 := Nat.div_eq_of_lt (by omega)
      simp [this]
    · have hkl : k < s.length := by omega
      have hmin : min k s.length = k := by omega
      have hres : partitionLoop k (n + 1) s =
          s.take k :: partitionLoop k n (s.drop k) := by
        simp only [partitionLoop, hmin]
        rw [if_neg (by omega)]
      have hlt : (s.drop k).length < n := by
        rw [List.length_drop]; omega
      obtain ⟨h1, h2, h3, h4⟩ := ih (s.drop k) hlt
      refine ⟨by simp [hres], ?_, ?_, ?_⟩
      · rw [hres]
        simp [h2]
      · rw [hres, List.length_cons, h3, List.length_drop]
        have hsub : s.length - k - 1 = s.length - 1 - k := by omega
        have hdiv : (s.length - 1) / k = (s.length - 1 - k) / k + 1 :=
          Nat.div_eq_sub_div hk (by omega)
        rw [hsub, hdiv]
        ring
      · obtain ⟨r, rs, hr⟩ : ∃ r rs, partitionLoop k n (s.drop k) = r :: rs := by
          cases hE : partitionLoop k n (s.drop k) with
          | nil => exact absurd hE h1
          | cons r rs => exact ⟨r, rs, rfl⟩
        rw [hres, hr, List.dropLast_cons₂]
        intro p hp
        rcases List.mem_cons.mp hp with hp1 | hp2
        · rw [hp1, List.length_take]; omega
        · rw [← hr] at hp2
          exact h4 p hp2

/-! ### Claim theorems -/

/-- Claim C3: for `maxLineSize = k > 0` and a line of length `L > k`, the
engine's split branch emits fragments which concatenate to exactly the
original line, number `ceil(L / k)`, all but possibly the last of length
exactly `k`, and every emitted `Line` of the split carries the single
captured timestamp `now`. -/
theorem C3_split_correct (s : List Char) (k : Int) (now : Nat)
    (hk : 0 < k) (hL : (s.length : Int) > k) :
    emitTexts k s ≠ none ∧
    ((emitTexts k s).getD []).flatten = s ∧
    ((emitTexts k s).getD []).length = (s.length + k.toNat - 1) / k.toNat ∧
    ((emitTexts k s).getD []).dropLast.all (fun p => p.length == k.toNat) = true ∧
    (emitLine k s now).getD [] ≠ [] ∧
    ((emitLine k s now).getD []).all (fun e => e.time == now) = true := by
  have hET : emitTexts k s = some (partitionLoop k.toNat (s.length + 1) s) := by
    rw [emitTexts, if_pos ⟨hk, hL⟩, partitionString, if_neg (by omega)]
  have h0 : 0 < k.toNat := by omega
  have hlen1 : 1 ≤ s.length := by omega
  obtain ⟨h1, h2, h3, h4⟩ :=
    partitionLoop_spec k.toNat h0 (s.length + 1) s (by omega)
  refine ⟨by simp [hET], ?_, ?_, ?_, ?_, ?_⟩
  · rw [hET]; exact h2
  · rw [hET]
    show (partitionLoop k.toNat (s.length + 1) s).length = _
    rw [h3]
    have hrw : s.length + k.toNat - 1 = (s.length - 1) + k.toNat := by omega
    rw [hrw, Nat.add_div_right _ h0]
    ring
  · rw [hET]
    simp only [Option.getD_some, List.all_eq_true, beq_iff_eq]
    exact h4
  · rw [emitLine, hET]
    simpa using h1
  · rw [emitLine, hET]
    simp [List.all_eq_true]

/-- Claim C3 witness: the split of `"hello"` with `maxLineSize = 3` at
timestamp 7. -/
theorem C3_split_correct_witness :
    emitTexts 3 ['h','e','l','l','o'] ≠ none ∧
    ((emitTexts 3 ['h','e','l','l','o']).getD []).flatten = ['h','e','l','l','o'] ∧
    ((emitTexts 3 ['h','e','l','l','o']).getD []).length =
      (['h','e','l','l','o'].length + (3 : Int).toNat - 1) / (3 : Int).toNat ∧
    ((emitTexts 3 ['h','e','l','l','o']).getD []).dropLast.all
      (fun p => p.length == (3 : Int).toNat) = true ∧
    (emitLine 3 ['h','e','l','l','o'] 7).getD [] ≠ [] ∧
    ((emitLine 3 ['h','e','l','l','o'] 7).getD []).all (fun e => e.time == 7) = true :=
  C3_split_correct ['h','e','l','l','o'] 3 7 (by decide) (by decide)

/-- Claim C8 counterexample: splitting the empty line with chunk size 3
produces one empty fragment, not zero fragments as claimed. -/
theorem C8_counterexample :
    partitionString [] 3 ≠ some [] ∧ partitionString [] 3 = some [[]] := by decide

/-- Claim C8, amended: applying the line-splitting operation to an empty
line produces one empty fragment (not zero fragments), for every positive
chunk size. -/
theorem C8_empty_one_fragment (k : Int) (hk : 0 < k) :
    partitionString [] k = some [[]] := by
  rw [partitionString, if_neg (by omega)]
  simp [partitionLoop]

/-- Claim C8 witness: the amended statement at chunk size 1. -/
theorem C8_empty_one_fragment_witness : partitionString [] 1 = some [[]] :=
  C8_empty_one_fragment 1 (by decide)

/-- Claim C10: `partitionString` panics exactly when the chunk size is
not positive, and the engine's per-line emission never reaches that
panic: its guard (`MaxLineSize > 0 && len(line) > MaxLineSize`) only
calls `partitionString` with a positive chunk size. -/
theorem C10_partition_panic_unreachable :
    (∀ (s : List Char) (k : Int), k ≤ 0 → partitionString s k = none) ∧
    (∀ (m : Int) (line : List Char) (now : Nat), (emitLine m line now).isSome = true) := by
  constructor
  · intro s k hk
    rw [partitionString, if_pos hk]
  · intro m line now
    rw [emitLine, emitTexts]
    by_cases hc : m > 0 ∧ (line.length : Int) > m
    · rw [if_pos hc, partitionString, if_neg (by omega)]
      rfl
    · rw [if_neg hc]
      rfl

/-- Claim C10 witness: the panic at chunk size `-1`, and a reachable
emission. -/
theorem C10_partition_panic_unreachable_witness :
    partitionString ['a'] (-1) = none ∧ (emitLine 0 ['a'] 0).isSome = true :=
  ⟨C10_partition_panic_unreachable.1 ['a'] (-1) (by decide),
   C10_partition_panic_unreachable.2 0 ['a'] 0⟩

/-- Claim C2, code evaluation at the failing input: `Location = 0` takes
the `Location >= 0` branch of tail.go:133, producing `whence = 0`,
`offset = 0` — an absolute seek to byte 0 (start of file), not the
seek-to-end (`whence = 2`) of the dead `else` branch; on a 12-byte file
(`"hello\nworld\n"`) the read position resolves to 0, so the
pre-existing lines are replayed. -/
theorem C2_location_zero_seeks_start :
    seekSpec 0 = ⟨0, 0⟩ ∧ seekSpec 0 ≠ ⟨2, 0⟩ ∧ resolveSeek 12 (seekSpec 0) = 0 := by
  decide

/-- Claim C7, code evaluation at the failing input: an unexpected stat
error (not not-found) makes the polling watcher's goroutine panic
(polling.go:70) instead of surfacing the error to the engine as the
session's terminal error. -/
theorem C7_stat_error_panics (origId : FileId) (st : WatchState) :
    pollWake origId st .statError = .panicked := rfl

/-! ### Reading a complete newline-terminated line -/

theorem findIdx_newline (l rest : List Char) (h : '\n' ∉ l) :
    (l ++ '\n' :: rest).findIdx (· = '\n') = l.length := by
  induction l with
  | nil => simp [List.findIdx_cons]
  | cons a t ih =>
    have ha : ¬(a = '\n') := fun e => h (by simp [e])
    have ht : '\n' ∉ t := fun hx => h (List.mem_cons_of_mem a hx)
    simp [List.findIdx_cons, ha, ih ht]

theorem readLine_cons_eq (content : List Char) (h : content ≠ []) :
    readLine content =
      if content.findIdx (· = '\n') < content.length ∧
          content.findIdx (· = '\n') < bufSize then
        some ((if (content.take (content.findIdx (· = '\n'))).getLast? = some '\r'
               then (content.take (content.findIdx (· = '\n'))).dropLast
               else content.take (content.findIdx (· = '\n'))),
              content.drop (content.findIdx (· = '\n') + 1))
      else if bufSize ≤ content.length then
        if (content.take bufSize).getLast? = some '\r' then
          some (content.take (bufSize - 1), content.drop (bufSize - 1))
        else
          some (content.take bufSize, content.drop bufSize)
      else some (content, []) := by
  cases content with
  | nil => exact absurd rfl h
  | cons c cs => rfl

/-- `readLine` on a complete line (no interior newline, no trailing
carriage return, shorter than the reader's buffer) followed by its
newline terminator yields that line verbatim and the remaining
content. -/
theorem readLine_complete (l rest : List Char)
    (h1 : '\n' ∉ l) (h2 : l.getLast? ≠ some '\r') (h3 : l.length < bufSize) :
    readLine (l ++ '\n' :: rest) = some (l, rest) := by
  rw [readLine_cons_eq _ (by simp), findIdx_newline l rest h1]
  rw [if_pos ⟨by simp, h3⟩]
  rw [List.take_left l ('\n' :: rest), if_neg h2]
  have hd : (l ++ '\n' :: rest).drop (l.length + 1) = rest := by
    have he : l ++ '\n' :: rest = (l ++ ['\n']) ++ rest := by simp
    have hl2 : (l ++ ['\n']).length = l.length + 1 := by simp
    rw [he, ← hl2]
    exact List.drop_left _ _
  rw [hd]

theorem runNoFollowF_complete (ls : List (List Char))
    (hn : ∀ l ∈ ls, '\n' ∉ l) (hr : ∀ l ∈ ls, l.getLast? ≠ some '\r')
    (hb : ∀ l ∈ ls, l.length < bufSize) :
    ∀ fuel, ((ls.map (fun l => l ++ ['\n'])).flatten).length < fuel →
      runNoFollowF 0 fuel ((ls.map (fun l => l ++ ['\n'])).flatten) = some ls := by
  induction ls with
  | nil =>
    intro fuel hf
    cases fuel with
    | zero => simp at hf
    | succ n => simp [runNoFollowF, readLine]
  | cons l tl ih =>
    intro fuel hf
    have hcontent : (((l :: tl).map (fun x => x ++ ['\n'])).flatten : List Char)
        = l ++ '\n' :: ((tl.map (fun x => x ++ ['\n'])).flatten) := by
      simp
    cases fuel with
    | zero => simp at hf
    | succ n =>
      rw [hcontent] at hf ⊢
      have hC : ((tl.map (fun x => x ++ ['\n'])).flatten).length < n := by
        rw [List.length_append, List.length_cons] at hf
        omega
      have hET : emitTexts 0 l = some [l] := by
        rw [emitTexts, if_neg (by simp)]
      rw [runNoFollowF,
        readLine_complete l _ (hn l (by simp)) (hr l (by simp)) (hb l (by simp))]
      dsimp only
      rw [hET, ih (fun x hx => hn x (by simp [hx])) (fun x hx => hr x (by simp [hx]))
        (fun x hx => hb x (by simp [hx])) n hC]
      rfl

theorem readLine_bufferFull_line :
    readLine (List.replicate bufSize 'a' ++ ['\n']) =
      some (List.replicate bufSize 'a', ['\n']) := by
  have hnl : '\n' ∉ List.replicate bufSize 'a' := by
    intro h
    exact absurd (List.mem_replicate.mp h).2 (by decide)
  have hfi := findIdx_newline (List.replicate bufSize 'a') [] hnl
  rw [readLine_cons_eq _ (by simp), hfi, List.length_replicate]
  rw [if_neg (by simp), if_pos (by simp)]
  have htake : (List.replicate bufSize 'a' ++ ['\n']).take bufSize =
      List.replicate bufSize 'a' :=
    List.take_left' (List.length_replicate bufSize 'a')
  have hdrop : (List.replicate bufSize 'a' ++ ['\n']).drop bufSize = ['\n'] :=
    List.drop_left' (List.length_replicate bufSize 'a')
  have hlast : (List.replicate bufSize 'a').getLast? = some 'a' := by
    rw [show bufSize = 4095 + 1 from rfl, List.replicate_succ' 4095 'a']
    exact List.getLast?_concat _
  rw [htake, hdrop, if_neg (by rw [hlast]; decide)]

theorem run_bufferFull_line :
    runNoFollow 0 (List.replicate bufSize 'a' ++ ['\n']) =
      some [List.replicate bufSize 'a', []] := by
  have h1 : (List.replicate bufSize 'a' ++ ['\n']).length + 1 = (bufSize + 1) + 1 := by
    simp
  rw [runNoFollow, h1, runNoFollowF, readLine_bufferFull_line]
  dsimp only
  have hET : emitTexts 0 (List.replicate bufSize 'a') =
      some [List.replicate bufSize 'a'] := by
    rw [emitTexts, if_neg (by simp)]
  have h2 : runNoFollowF 0 (bufSize + 1) ['\n'] = some [[]] := by
    rw [runNoFollowF, show readLine ['\n'] = some ([], []) from by decide]
    dsimp only
    rw [show emitTexts 0 [] = some [[]] from by decide,
      show bufSize = 4095 + 1 from rfl, runNoFollowF]
    rfl
  rw [hET, h2]
  rfl

/-- Claim C1 counterexample, two failure modes at concrete files of
complete newline-terminated lines. First, the file `"a\r\n"` is a single
complete line `"a\r"`, but the emitted text is `"a"` — the carriage
return before the newline is stripped by the reader, so the line is not
delivered verbatim. Second, a file of one complete CR-free line of
4096 'a's (the reader's buffer size) is not delivered as exactly that
line: the buffer fills before the newline is seen and `readLine`
discards `isPrefix`, so the session emits the 4096-byte chunk and then a
separate empty line. -/
theorem C1_counterexample :
    (runNoFollow 0 (([['a','\r']].map (fun l => l ++ ['\n'])).flatten) ≠ some [['a','\r']] ∧
      runNoFollow 0 (([['a','\r']].map (fun l => l ++ ['\n'])).flatten) = some [['a']]) ∧
    (runNoFollow 0 (([List.replicate bufSize 'a'].map (fun l => l ++ ['\n'])).flatten) ≠
        some [List.replicate bufSize 'a'] ∧
      runNoFollow 0 (([List.replicate bufSize 'a'].map (fun l => l ++ ['\n'])).flatten) =
        some [List.replicate bufSize 'a', []]) := by
  have hfl : (([List.replicate bufSize 'a'].map (fun l => l ++ ['\n'])).flatten : List Char)
      = List.replicate bufSize 'a' ++ ['\n'] := by simp
  refine ⟨by decide, ?_, ?_⟩
  · rw [hfl, run_bufferFull_line]
    simp
  · rw [hfl]
    exact run_bufferFull_line

/-- Claim C1, amended: for every file whose content is a sequence of
complete newline-terminated lines, each shorter than 4096 bytes (the
bufio reader's buffer size) and none ending in a carriage return, the
non-follow session's output stream yields exactly those lines, in file
order, verbatim (so no newline characters appear in any emitted text,
the lines being newline-free by hypothesis). -/
theorem C1_complete_lines (ls : List (List Char))
    (hn : ∀ l ∈ ls, '\n' ∉ l) (hr : ∀ l ∈ ls, l.getLast? ≠ some '\r')
    (hb : ∀ l ∈ ls, l.length < bufSize) :
    runNoFollow 0 ((ls.map (fun l => l ++ ['\n'])).flatten) = some ls :=
  runNoFollowF_complete ls hn hr hb _ (by omega)

/-- Claim C1 witness: the three-line file `"hi\n\nyo\n"` (including an
empty line) is delivered verbatim. -/
theorem C1_complete_lines_witness :
    runNoFollow 0 (([['h','i'], [], ['y','o']].map (fun l => l ++ ['\n'])).flatten)
      = some [['h','i'], [], ['y','o']] :=
  C1_complete_lines [['h','i'], [], ['y','o']] (by decide) (by decide) (by decide)

/-- Claim C4: starting a tail with `ReOpen` set but `Follow` unset fails
fast with a panic (an unrecoverable assertion) before the driver
goroutine is scheduled and before any session is returned. -/
theorem C4_reopen_without_follow_panics (config : Config) (fileExists : Bool)
    (hre : config.reOpen = true) (hf : config.follow = false) :
    tailFileStart config fileExists = .panicked "cannot set ReOpen without Follow." ∧
    taskScheduled (tailFileStart config fileExists) = false := by
  have : tailFileStart config fileExists = .panicked "cannot set ReOpen without Follow." := by
    rw [tailFileStart, if_pos (by simp [hre, hf])]
  exact ⟨this, by rw [this]; rfl⟩

/-- Claim C4 witness: a concrete configuration with `ReOpen` and without
`Follow`. -/
theorem C4_reopen_without_follow_panics_witness :
    tailFileStart ⟨0, false, true, false, false, 0⟩ true =
      .panicked "cannot set ReOpen without Follow." ∧
    taskScheduled (tailFileStart ⟨0, false, true, false, false, 0⟩ true) = false :=
  C4_reopen_without_follow_panics ⟨0, false, true, false, false, 0⟩ true rfl rfl

/-- Claim C5: for a configuration not hitting the `ReOpen`-without-
`Follow` panic, against a path where no file exists: with
`MustExist = true` the start operation returns the open error
synchronously and schedules no driver goroutine; with
`MustExist = false` it returns a session (nil error) with the driver
goroutine scheduled. -/
theorem C5_must_exist (config : Config)
    (hvalid : config.reOpen = true → config.follow = true) :
    (config.mustExist = true →
      tailFileStart config false = .openError ∧
      taskScheduled (tailFileStart config false) = false) ∧
    (config.mustExist = false →
      tailFileStart config false = .started ∧
      taskScheduled (tailFileStart config false) = true) := by
  obtain ⟨loc, fo, ro, me, po, mls⟩ := config
  cases fo <;> cases ro <;> cases me <;>
    simp_all [tailFileStart, taskScheduled]

/-- Claim C5 witness: concrete configurations (follow-only), one with
`MustExist` set, one without, against a nonexistent path. -/
theorem C5_must_exist_witness :
    (tailFileStart ⟨0, true, false, true, false, 0⟩ false = .openError ∧
      taskScheduled (tailFileStart ⟨0, true, false, true, false, 0⟩ false) = false) ∧
    (tailFileStart ⟨0, true, false, false, false, 0⟩ false = .started ∧
      taskScheduled (tailFileStart ⟨0, true, false, false, false, 0⟩ false) = true) :=
  ⟨(C5_must_exist ⟨0, true, false, true, false, 0⟩ (fun _ => rfl)).1 rfl,
   (C5_must_exist ⟨0, true, false, false, false, 0⟩ (fun _ => rfl)).2 rfl⟩

/-- Claim C6: each wake of the polling watcher's monitoring goroutine
decides, in priority order: stat not-found notifies deleted and stops;
an identity mismatch with the original file notifies deleted and stops;
a current size strictly below the last known size notifies truncated and
updates the last-known size (keeping the last-known mod time); then a
changed mod time notifies modified and updates the last-known mod time;
otherwise no signal is produced before the next sleep. -/
theorem C6_poll_wake_priority (origId : FileId) (st : WatchState) (fi : FileInfo) :
    (pollWake origId st .notFound = .stop .deleted) ∧
    (fi.id ≠ origId → pollWake origId st (.ok fi) = .stop .deleted) ∧
    (fi.id = origId → fi.size < st.prevSize →
      pollWake origId st (.ok fi) = .cont (some .truncated) ⟨fi.size, st.prevModTime⟩) ∧
    (fi.id = origId → ¬fi.size < st.prevSize → fi.modTime ≠ st.prevModTime →
      pollWake origId st (.ok fi) = .cont (some .modified) ⟨fi.size, fi.modTime⟩) ∧
    (fi.id = origId → ¬fi.size < st.prevSize → fi.modTime = st.prevModTime →
      pollWake origId st (.ok fi) = .cont none ⟨fi.size, st.prevModTime⟩) := by
  refine ⟨rfl, ?_, ?_, ?_, ?_⟩
  · intro hid
    simp [pollWake, hid]
  · intro hid hsz
    rw [pollWake.eq_def]
    simp only [hid]
    rw [if_neg (by simp), if_pos (by omega)]
  · intro hid hsz hmt
    rw [pollWake.eq_def]
    simp only [hid]
    rw [if_neg (by simp), if_neg (by omega), if_pos hmt]
  · intro hid hsz hmt
    rw [pollWake.eq_def]
    simp only [hid]
    rw [if_neg (by simp), if_neg (by omega), if_neg (by simp [hmt])]

/-- Claim C6 witness: the five decisions at concrete states — not-found;
a new inode at the same path; a shrunk file; a touched file; and an
unchanged file. -/
theorem C6_poll_wake_priority_witness :
    (pollWake ⟨1, 2⟩ ⟨10, 5⟩ .notFound = .stop .deleted) ∧
    (pollWake ⟨1, 2⟩ ⟨10, 5⟩ (.ok ⟨⟨1, 3⟩, 10, 5⟩) = .stop .deleted) ∧
    (pollWake ⟨1, 2⟩ ⟨10, 5⟩ (.ok ⟨⟨1, 2⟩, 4, 5⟩) =
      .cont (some .truncated) ⟨4, 5⟩) ∧
    (pollWake ⟨1, 2⟩ ⟨10, 5⟩ (.ok ⟨⟨1, 2⟩, 12, 6⟩) =
      .cont (some .modified) ⟨12, 6⟩) ∧
    (pollWake ⟨1, 2⟩ ⟨10, 5⟩ (.ok ⟨⟨1, 2⟩, 10, 5⟩) = .cont none ⟨10, 5⟩) :=
  ⟨(C6_poll_wake_priority ⟨1, 2⟩ ⟨10, 5⟩ ⟨⟨1, 2⟩, 10, 5⟩).1,
   (C6_poll_wake_priority ⟨1, 2⟩ ⟨10, 5⟩ ⟨⟨1, 3⟩, 10, 5⟩).2.1 (by decide),
   (C6_poll_wake_priority ⟨1, 2⟩ ⟨10, 5⟩ ⟨⟨1, 2⟩, 4, 5⟩).2.2.1 rfl (by decide),
   (C6_poll_wake_priority ⟨1, 2⟩ ⟨10, 5⟩ ⟨⟨1, 2⟩, 12, 6⟩).2.2.2.1 rfl (by decide) (by decide),
   (C6_poll_wake_priority ⟨1, 2⟩ ⟨10, 5⟩ ⟨⟨1, 2⟩, 10, 5⟩).2.2.2.2 rfl (by decide) rfl⟩

end GoTail
